import Mathlib

/-!
Shallow embedding of the core of the `newsletter-aggregator` repository
(`src/app.py`, class `NewsAggregator`) and proofs of the behavioural
claims about it.

Modelling conventions:
- Python timestamps (`datetime`) are embedded as `Int` instants on a
  linear timeline; `timedelta(days = k)` is `k * 86400` seconds.
  Only the ordering of instants matters to the code being modelled.
- Fallible external effects are explicit parameters: each upstream HTTP
  response is a value describing what the remote returned (with `Option`
  / `Except` for the failure cases the code catches), and the result of
  `save_bookmarks` is a `saveOk : Bool` parameter.
- The `asyncio` event-loop plumbing in `force_refresh`, `get_cached_news`
  and `start_background_refresh` is assumed to function: the only
  exceptions those `try` blocks can see come from loop machinery, since
  `fetch_all_news` itself catches every adapter error internally.
- Python `sorted(..., key = f, reverse = True)` and
  `list.sort(key = f, reverse = True)` are stable descending sorts; they
  are embedded as `List.mergeSort` with the flipped comparator
  `fun a b => f b ≤ f a`, which is stable in exactly the same sense.
-/

/-- Normalized public record shape: the `{title, url}` dictionaries every
adapter ultimately returns (`src/app.py`, e.g. lines 54-58, 277, 360). -/
structure Item where
  title : String
  url : String
deriving DecidableEq

/-- Adapter-local shape carrying a popularity score before sorting
(`src/app.py` lines 54-58, 91-95, 137-141). -/
structure ScoredItem where
  title : String
  url : String
  score : Int
deriving DecidableEq

/-- Stable descending sort by an integer key: the embedding of Python
`sorted(l, key = lambda x: key(x), reverse = True)` (stable, per the
Python language reference). -/
def sortByKeyDesc {α : Type} (key : α → Int) (l : List α) : List α :=
  l.mergeSort (fun a b => key b ≤ key a)

/-- Response of one Hacker News `item/{id}.json` call (`src/app.py`
lines 51-52): a JSON object whose `title`, `url` and `score` fields may
each be absent. A `null` response is the `none` case at the call site. -/
structure HNStory where
  title : Option String
  url : Option String
  score : Option Int
deriving DecidableEq

/-- Stories kept by `get_hackernews` before sorting (`src/app.py` lines
47-58): the first 20 ids of the `topstories` response, each resolved to
its item response, kept only when the response is a non-null object with
both a `title` and a `url` key, with `score` defaulting to 0.
`topResp = none` embeds the `except` path (any request error returns `[]`). -/
def hnStories (topResp : Option (List Nat)) (fetchItem : Nat → Option HNStory) :
    List ScoredItem :=
  match topResp with
  | none => []
  | some ids =>
    (ids.take 20).filterMap fun id =>
      match fetchItem id with
      | none => none
      | some story =>
        match story.title, story.url with
        | some t, some u => some { title := t, url := u, score := story.score.getD 0 }
        | _, _ => none

/-- Embedding of `NewsAggregator.get_hackernews` (`src/app.py` lines
43-63): the kept stories sorted descending by `score`. -/
def getHackernews (topResp : Option (List Nat)) (fetchItem : Nat → Option HNStory) :
    List ScoredItem :=
  sortByKeyDesc (fun x => x.score) (hnStories topResp fetchItem)

/-- One result of the LessWrong GraphQL `posts` query (`src/app.py` lines
68-78): `title` and `slug` are requested fields, `baseScore` may be null. -/
structure LWPost where
  title : String
  slug : String
  baseScore : Option Int
deriving DecidableEq

/-- Posts built by `get_lesswrong` before sorting (`src/app.py` lines
86-95). `resp = none` embeds both the `except` path and a response
without `data.posts` (both produce the empty list). -/
def lwPosts (resp : Option (List LWPost)) : List ScoredItem :=
  match resp with
  | none => []
  | some results =>
    results.map fun post =>
      { title := post.title
        url := "https://www.lesswrong.com/posts/" ++ post.slug
        score := post.baseScore.getD 0 }

/-- Embedding of `NewsAggregator.get_lesswrong` (`src/app.py` lines
65-100): the built posts sorted descending by `score`. -/
def getLesswrong (resp : Option (List LWPost)) : List ScoredItem :=
  sortByKeyDesc (fun x => x.score) (lwPosts resp)

/-- One result of the EA Forum GraphQL `posts` query (`src/app.py` lines
105-117). `_id` and `slug` are read with `.get(..., '')`, embedded as
plain strings defaulting to `""`. -/
structure EAPost where
  title : String
  id : String
  slug : String
  baseScore : Option Int
deriving DecidableEq

/-- Posts built by `get_ea_forum` before sorting (`src/app.py` lines
125-141): the URL uses `/posts/{id}/{slug}` when `_id` is non-empty,
else `/posts/{slug}`. -/
def eaPosts (resp : Option (List EAPost)) : List ScoredItem :=
  match resp with
  | none => []
  | some results =>
    results.map fun post =>
      { title := post.title
        url :=
          if post.id ≠ "" then
            "https://forum.effectivealtruism.org/posts/" ++ post.id ++ "/" ++ post.slug
          else
            "https://forum.effectivealtruism.org/posts/" ++ post.slug
        score := post.baseScore.getD 0 }

/-- Embedding of `NewsAggregator.get_ea_forum` (`src/app.py` lines
102-147): the built posts sorted descending by `score`. -/
def getEaForum (resp : Option (List EAPost)) : List ScoredItem :=
  sortByKeyDesc (fun x => x.score) (eaPosts resp)

/-- One parsed feed entry (`feedparser` entry): `published_parsed` is
`none` when the entry lacks a parseable published date (`src/app.py`
lines 257, 332). -/
structure FeedEntry where
  title : String
  link : String
  published_parsed : Option Int
deriving DecidableEq

/-- One parsed feed: `ftitle` embeds `feed.feed.get('title', ...)`
(`src/app.py` line 266). -/
structure Feed where
  ftitle : Option String
  entries : List FeedEntry
deriving DecidableEq

/-- Adapter-local shape for time-windowed feed posts before sorting and
projection (`src/app.py` lines 262-267, 337-350). -/
structure FeedPost where
  title : String
  url : String
  published : Int
  source : String
deriving DecidableEq

/-- Seconds in `timedelta(days = 1)` (`src/app.py` line 249). -/
def oneDay : Int := 86400

/-- Seconds in `timedelta(days = 3)` (`src/app.py` line 324). -/
def threeDays : Int := 3 * 86400

/-- Posts collected by `get_substack_feeds` across all feeds before
sorting (`src/app.py` lines 248-271): per feed (a failed fetch, `none`,
contributes nothing), keep exactly the entries with a parseable
published date within the last day. -/
def substackPosts (feeds : List (Option Feed)) (now : Int) : List FeedPost :=
  feeds.flatMap fun feedResult =>
    match feedResult with
    | none => []
    | some feed =>
      feed.entries.filterMap fun entry =>
        match entry.published_parsed with
        | some pubDate =>
          if now - oneDay ≤ pubDate then
            some { title := entry.title
                   url := entry.link
                   published := pubDate
                   source := feed.ftitle.getD "Unknown Substack" }
          else none
        | none => none

/-- Embedding of `NewsAggregator.get_substack_feeds` (`src/app.py` lines
198-277): collected posts sorted descending by publication time, first
20 kept, projected to `{title, url}`. -/
def getSubstackFeeds (feeds : List (Option Feed)) (now : Int) : List Item :=
  ((sortByKeyDesc (fun x => x.published) (substackPosts feeds now)).take 20).map
    fun post => { title := post.title, url := post.url }

/-- Posts collected by `get_business_feeds` across its three named feeds
before sorting (`src/app.py` lines 323-354): entries with a parseable
date are kept only within the 3-day window; entries without one are kept
unconditionally as a fallback, stamped with the current time. Titles are
prefixed with the bracketed source label. -/
def businessPosts (feeds : List (String × Option Feed)) (now : Int) : List FeedPost :=
  feeds.flatMap fun namedFeed =>
    match namedFeed.2 with
    | none => []
    | some feed =>
      feed.entries.filterMap fun entry =>
        match entry.published_parsed with
        | some pubDate =>
          if now - threeDays ≤ pubDate then
            some { title := "[" ++ namedFeed.1 ++ "] " ++ entry.title
                   url := entry.link
                   published := pubDate
                   source := namedFeed.1 }
          else none
        | none =>
          some { title := "[" ++ namedFeed.1 ++ "] " ++ entry.title
                 url := entry.link
                 published := now
                 source := namedFeed.1 }

/-- Embedding of `NewsAggregator.get_business_feeds` (`src/app.py` lines
315-360): collected posts sorted descending by publication time, first
20 kept, projected to `{title, url}`. -/
def getBusinessFeeds (feeds : List (String × Option Feed)) (now : Int) : List Item :=
  ((sortByKeyDesc (fun x => x.published) (businessPosts feeds now)).take 20).map
    fun post => { title := post.title, url := post.url }

/-- The fixed, ordered source enumeration: the insertion order of the
`OrderedDict` in `NewsAggregator.__init__` (`src/app.py` lines 19-29). -/
def sourceNames : List String :=
  ["LessWrong", "EA Forum", "Substack (Last 24h)", "Business", "Hacker News",
   "Marginal Revolution", "Bloomberg", "Nature Neuroscience", "Gwern.net"]

/-- Embedding of `NewsAggregator.fetch_all_news` (`src/app.py` lines
399-411). One aggregation cycle: each source is looked up in
enumeration order; `adapters` gives each adapter invocation either a
returned list (`.ok`) or a raised exception (`.error`), which the
engine catches and replaces with the empty list. The Python dict with
string keys in insertion order is embedded as an association list. -/
def fetchAllNews (adapters : String → Except String (List Item)) :
    List (String × List Item) :=
  sourceNames.map fun name =>
    (name, match adapters name with
           | .ok items => items
           | .error _ => [])

/-- The mutable cache owned by the aggregator (`src/app.py` lines 32-33):
`news_cache` starts `{}` and `last_refresh` starts `None`. -/
structure CacheState where
  news_cache : List (String × List Item)
  last_refresh : Option Int
deriving DecidableEq

/-- Embedding of `NewsAggregator.force_refresh` (`src/app.py` lines
429-441): runs a full cycle, stores its result wholesale, stamps
`last_refresh`, returns `True`. The `except` branch (returning `False`)
only guards event-loop machinery, which this embedding assumes works;
`fetch_all_news` itself never raises (every adapter error is caught
inside its loop). -/
def forceRefresh (adapters : String → Except String (List Item)) (now : Int)
    (st : CacheState) : Bool × CacheState :=
  let _ := st
  (true, { news_cache := fetchAllNews adapters, last_refresh := some now })

/-- Embedding of `NewsAggregator.get_cached_news` (`src/app.py` lines
413-427): if the cache dict is empty (falsy), run one synchronous cycle,
store and return it; otherwise return the stored cache unchanged. As in
`forceRefresh`, the `except` path guards only loop machinery. -/
def getCachedNews (adapters : String → Except String (List Item)) (now : Int)
    (st : CacheState) : List (String × List Item) × CacheState :=
  if st.news_cache.isEmpty then
    let fresh := fetchAllNews adapters
    (fresh, { news_cache := fresh, last_refresh := some now })
  else
    (st.news_cache, st)

/-- One stored bookmark (`src/app.py` lines 465-470). -/
structure Bookmark where
  title : String
  url : String
  source : String
  timestamp : String
deriving DecidableEq

/-- Embedding of `NewsAggregator.add_bookmark` (`src/app.py` lines
463-478): build the bookmark (with the current time as `timestamp`),
reject as a no-op if any existing bookmark has the same `url`, else
insert at the front of the in-memory list and return the result of
`save_bookmarks` (embedded as `saveOk`). The returned pair is (reported
result, in-memory list after the call). -/
def addBookmark (bookmarks : List Bookmark) (title url source timestamp : String)
    (saveOk : Bool) : Bool × List Bookmark :=
  let bookmark : Bookmark :=
    { title := title, url := url, source := source, timestamp := timestamp }
  if bookmarks.any (fun existing => existing.url = url) then
    (false, bookmarks)
  else
    (saveOk, bookmark :: bookmarks)

/-- Embedding of `NewsAggregator.remove_bookmark` (`src/app.py` lines
480-483): filter out every bookmark with the given `url` (the in-memory
list is reassigned before saving), return the result of
`save_bookmarks`. -/
def removeBookmark (bookmarks : List Bookmark) (url : String) (saveOk : Bool) :
    Bool × List Bookmark :=
  (saveOk, bookmarks.filter (fun b => b.url ≠ url))

-- ### Generic facts about the stable descending sort

/-- The stable descending sort is sorted: adjacent keys are
non-increasing. -/
theorem pairwise_sortByKeyDesc {α : Type} (key : α → Int) (l : List α) :
    (sortByKeyDesc key l).Pairwise (fun a b => key b ≤ key a) := by
  have h := @List.sorted_mergeSort α (fun a b : α => decide (key b ≤ key a))
    (fun a b c hab hbc =>
      decide_eq_true (le_trans (of_decide_eq_true hbc) (of_decide_eq_true hab)))
    (fun a b => by
      rcases le_total (key b) (key a) with h | h <;> simp [h]) l
  exact h.imp fun hab => of_decide_eq_true hab

/-- Stability of the descending sort: the subsequence of elements with
any fixed key value is exactly the same, in the same order, as before
sorting. -/
theorem filter_sortByKeyDesc {α : Type} (key : α → Int) (s : Int) (l : List α) :
    (sortByKeyDesc key l).filter (fun a => key a = s)
      = l.filter (fun a => key a = s) := by
  have trans : ∀ a b c : α, (decide (key b ≤ key a)) = true →
      (decide (key c ≤ key b)) = true → (decide (key c ≤ key a)) = true :=
    fun a b c hab hbc =>
      decide_eq_true (le_trans (of_decide_eq_true hbc) (of_decide_eq_true hab))
  have total : ∀ a b : α,
      ((decide (key b ≤ key a)) || (decide (key a ≤ key b))) = true := by
    intro a b
    rcases le_total (key b) (key a) with h | h <;> simp [h]
  have hpair : (l.filter (fun a => decide (key a = s))).Pairwise
      (fun a b => (decide (key b ≤ key a)) = true) := by
    refine List.pairwise_of_forall_mem_list ?_
    intro a ha b hb
    have ha' : key a = s := of_decide_eq_true ((List.mem_filter.mp ha).2)
    have hb' : key b = s := of_decide_eq_true ((List.mem_filter.mp hb).2)
    simp [ha', hb']
  have hsub : List.Sublist (l.filter (fun a => decide (key a = s)))
      (sortByKeyDesc key l) :=
    List.sublist_mergeSort trans total hpair (List.filter_sublist l)
  have hself : (l.filter (fun a => decide (key a = s))).filter
        (fun a => decide (key a = s))
      = l.filter (fun a => decide (key a = s)) := by
    refine List.filter_eq_self.mpr ?_
    intro a ha
    exact (List.mem_filter.mp ha).2
  have hsub2 : List.Sublist (l.filter (fun a => decide (key a = s)))
      ((sortByKeyDesc key l).filter (fun a => decide (key a = s))) := by
    have h2 := hsub.filter (fun a => decide (key a = s))
    rwa [hself] at h2
  have hperm : List.Perm ((sortByKeyDesc key l).filter (fun a => decide (key a = s)))
      (l.filter (fun a => decide (key a = s))) :=
    (List.mergeSort_perm l _).filter _
  exact (hsub2.eq_of_length hperm.length_eq.symm).symm

/-- Membership is preserved by the descending sort. -/
theorem mem_sortByKeyDesc {α : Type} {key : α → Int} {a : α} {l : List α} :
    a ∈ sortByKeyDesc key l ↔ a ∈ l :=
  List.mem_mergeSort

-- ### C1: the aggregation cycle always yields all 9 keys in order

/-- C1: for every execution of the aggregation cycle (`fetch_all_news`), the
returned mapping contains exactly the 9 fixed source keys in enumeration
order, regardless of how many adapters fail, and a failing adapter's key is
present, mapped to the empty sequence. -/
theorem fetchAllNews_keys_complete (adapters : String → Except String (List Item)) :
    (fetchAllNews adapters).map Prod.fst
      = ["LessWrong", "EA Forum", "Substack (Last 24h)", "Business", "Hacker News",
         "Marginal Revolution", "Bloomberg", "Nature Neuroscience", "Gwern.net"]
    ∧ ∀ name ∈ sourceNames, ∀ e, adapters name = .error e →
        (name, ([] : List Item)) ∈ fetchAllNews adapters := by
  constructor
  · simp [fetchAllNews, sourceNames]
  · intro name hname e herr
    refine List.mem_map.mpr ⟨name, hname, ?_⟩
    simp [herr]

/-- Witness for C1 at a concrete environment where every adapter raises. -/
theorem fetchAllNews_keys_complete_witness :
    (fetchAllNews (fun _ => .error "boom")).map Prod.fst
      = ["LessWrong", "EA Forum", "Substack (Last 24h)", "Business", "Hacker News",
         "Marginal Revolution", "Bloomberg", "Nature Neuroscience", "Gwern.net"]
    ∧ ("Hacker News", ([] : List Item)) ∈ fetchAllNews (fun _ => .error "boom") :=
  ⟨(fetchAllNews_keys_complete (fun _ => .error "boom")).1,
   (fetchAllNews_keys_complete (fun _ => .error "boom")).2 "Hacker News" (by decide)
     "boom" rfl⟩

-- ### C2: force_refresh when every adapter raises

/-- C2 as stated is false on the code: starting from a populated cache, when
every adapter raises a TransientFetchError, `force_refresh` returns success
(`True`), not failure, and the subsequent `get_cached_news` returns the new
all-empty aggregate, not the prior pre-refresh snapshot. -/
theorem forceRefresh_allFail_counterexample :
    (forceRefresh (fun _ => .error "TransientFetchError") 5
        { news_cache := fetchAllNews (fun _ => .ok [{ title := "A", url := "a" }]),
          last_refresh := some 0 }).1 = true
    ∧ (getCachedNews (fun _ => .error "TransientFetchError") 6
          (forceRefresh (fun _ => .error "TransientFetchError") 5
            { news_cache := fetchAllNews (fun _ => .ok [{ title := "A", url := "a" }]),
              last_refresh := some 0 }).2).1
        ≠ fetchAllNews (fun _ => .ok [{ title := "A", url := "a" }]) := by
  constructor
  · rfl
  · decide

/-- C2 (amended): if every adapter raises during an on-demand refresh,
`force_refresh` succeeds (every adapter error is absorbed by
`fetch_all_news`): it returns `True` and replaces the cache wholesale with
the aggregate mapping each of the 9 source keys to an empty sequence; a
subsequent `get_cached_news` returns that all-empty aggregate, not the prior
snapshot. -/
theorem forceRefresh_allFail_replaces_cache
    (errs : String → String) (st : CacheState) (now now2 : Int) :
    forceRefresh (fun name => .error (errs name)) now st
      = (true, { news_cache := sourceNames.map (fun name => (name, [])),
                 last_refresh := some now })
    ∧ (getCachedNews (fun name => .error (errs name)) now2
          (forceRefresh (fun name => .error (errs name)) now st).2).1
        = sourceNames.map (fun name => (name, [])) := by
  constructor <;> rfl

-- ### C3: empty cache, all adapters failing

/-- C3: when the cache is empty and every adapter fails, `get_cached_news`
returns a mapping with all 9 source keys present, each value the empty
sequence (it is a total function of the modelled state, so it does not
throw). -/
theorem getCachedNews_empty_cache_allFail (errs : String → String) (now : Int) :
    (getCachedNews (fun name => .error (errs name)) now
        { news_cache := [], last_refresh := none }).1
      = sourceNames.map (fun name => (name, ([] : List Item)))
    ∧ ((getCachedNews (fun name => .error (errs name)) now
          { news_cache := [], last_refresh := none }).1).map Prod.fst
        = ["LessWrong", "EA Forum", "Substack (Last 24h)", "Business", "Hacker News",
           "Marginal Revolution", "Bloomberg", "Nature Neuroscience", "Gwern.net"] := by
  constructor <;> rfl

-- ### C4: add_bookmark when persisting fails

/-- C4 as stated is false on the code: on a store where "U" is not yet
bookmarked and with persistence failing, `add_bookmark` reports failure, but
the in-memory list does contain the new bookmark afterwards (the insert at
position 0 happens before `save_bookmarks` and is not rolled back). -/
theorem addBookmark_persist_fail_counterexample :
    (addBookmark [] "T" "U" "S" "ts" false).1 = false
    ∧ ({ title := "T", url := "U", source := "S", timestamp := "ts" } : Bookmark)
        ∈ (addBookmark [] "T" "U" "S" "ts" false).2 := by
  constructor
  · rfl
  · decide

/-- C4 (amended): for every store state and add request whose url is not
already bookmarked, if persisting fails then `add_bookmark` reports the
mutation as failed, but the in-memory list afterwards does contain the new
bookmark, inserted at the front (the insert is not rolled back). -/
theorem addBookmark_persist_fail_keeps_insert
    (l : List Bookmark) (t u s ts : String)
    (h : ∀ bk ∈ l, bk.url ≠ u) :
    addBookmark l t u s ts false
      = (false, { title := t, url := u, source := s, timestamp := ts } :: l) := by
  unfold addBookmark
  have hany : l.any (fun existing => existing.url = u) = false := by
    simp only [List.any_eq_false]
    intro x hx
    simpa using h x hx
  simp [hany]

/-- Witness for C4 (amended) at the empty store. -/
theorem addBookmark_persist_fail_keeps_insert_witness :
    addBookmark [] "T" "U" "S" "ts" false
      = (false, [{ title := "T", url := "U", source := "S", timestamp := "ts" }]) :=
  addBookmark_persist_fail_keeps_insert [] "T" "U" "S" "ts" (by simp)

-- ### C5: duplicate adds are rejected

/-- C5: after `add(t, u, s)` succeeds, a second `add(t2, u, s2)` with the
same url reports "already exists" (returns `false`) without modifying the
store, and the store contains exactly one bookmark whose url equals `u`. -/
theorem addBookmark_duplicate_rejected
    (l : List Bookmark) (t u s ts t2 s2 ts2 : String) (b b2 : Bool)
    (h : (addBookmark l t u s ts b).1 = true) :
    addBookmark (addBookmark l t u s ts b).2 t2 u s2 ts2 b2
      = (false, (addBookmark l t u s ts b).2)
    ∧ ((addBookmark l t u s ts b).2).countP (fun bk => bk.url = u) = 1 := by
  by_cases hdup : l.any (fun existing => existing.url = u) = true
  · exfalso
    unfold addBookmark at h
    simp [hdup] at h
  · have hdup' : l.any (fun existing => decide (existing.url = u)) = false := by
      simpa using hdup
    have hsnd : (addBookmark l t u s ts b).2
        = { title := t, url := u, source := s, timestamp := ts } :: l := by
      unfold addBookmark
      simp [hdup']
    constructor
    · rw [hsnd]
      unfold addBookmark
      simp
    · rw [hsnd]
      have h0 : l.countP (fun bk => decide (bk.url = u)) = 0 := by
        rw [List.countP_eq_zero]
        intro a ha
        have := List.any_eq_false.mp hdup' a ha
        simpa using this
      simp [List.countP_cons, h0]

/-- Witness for C5: a successful add of "U" into the empty store followed by
a second add of "U". -/
theorem addBookmark_duplicate_rejected_witness :
    (addBookmark [] "T" "U" "S" "t1" true).1 = true
    ∧ (addBookmark (addBookmark [] "T" "U" "S" "t1" true).2 "T2" "U" "S2" "t2" true
        = (false, (addBookmark [] "T" "U" "S" "t1" true).2)
      ∧ ((addBookmark [] "T" "U" "S" "t1" true).2).countP (fun bk => bk.url = "U")
          = 1) :=
  ⟨rfl, addBookmark_duplicate_rejected [] "T" "U" "S" "t1" "T2" "S2" "t2" true true rfl⟩

-- ### C9: remove after add round-trip

/-- C9: for every store state, after `add(title, u, s)` followed by
`remove(u)`, the list contains no entry with url `u`, and a further
`remove(u)` succeeds as a no-op, leaving the list unchanged (persistence
assumed to succeed on the removes, as the scenario presumes). -/
theorem remove_after_add_roundtrip
    (l : List Bookmark) (t u s ts : String) (b : Bool) :
    (removeBookmark (addBookmark l t u s ts b).2 u true).1 = true
    ∧ (∀ bk ∈ (removeBookmark (addBookmark l t u s ts b).2 u true).2, bk.url ≠ u)
    ∧ removeBookmark (removeBookmark (addBookmark l t u s ts b).2 u true).2 u true
        = (true, (removeBookmark (addBookmark l t u s ts b).2 u true).2) := by
  refine ⟨rfl, ?_, ?_⟩
  · intro bk hbk
    have := (List.mem_filter.mp hbk).2
    simpa using this
  · unfold removeBookmark
    rw [List.filter_eq_self.mpr (fun a ha => (List.mem_filter.mp ha).2)]

/-- Witness for C9 on a store holding one unrelated bookmark. -/
theorem remove_after_add_roundtrip_witness :
    (removeBookmark (addBookmark
        [{ title := "B", url := "V", source := "S2", timestamp := "t0" }]
        "T" "U" "S" "t1" true).2 "U" true).1 = true
    ∧ ("V" : String) ≠ "U"
    ∧ removeBookmark (removeBookmark (addBookmark
          [{ title := "B", url := "V", source := "S2", timestamp := "t0" }]
          "T" "U" "S" "t1" true).2 "U" true).2 "U" true
        = (true, (removeBookmark (addBookmark
            [{ title := "B", url := "V", source := "S2", timestamp := "t0" }]
            "T" "U" "S" "t1" true).2 "U" true).2) :=
  ⟨(remove_after_add_roundtrip
      [{ title := "B", url := "V", source := "S2", timestamp := "t0" }]
      "T" "U" "S" "t1" true).1,
   (remove_after_add_roundtrip
      [{ title := "B", url := "V", source := "S2", timestamp := "t0" }]
      "T" "U" "S" "t1" true).2.1
      { title := "B", url := "V", source := "S2", timestamp := "t0" } (by decide),
   (remove_after_add_roundtrip
      [{ title := "B", url := "V", source := "S2", timestamp := "t0" }]
      "T" "U" "S" "t1" true).2.2⟩

-- ### C10: remove_bookmark frame property

/-- C10: for every bookmark list and url `u`, `remove_bookmark(u)` leaves
every bookmark whose url differs from `u` present, with its fields unchanged
and in the same relative order (the surviving list is a sublist of the
original). -/
theorem removeBookmark_frame (l : List Bookmark) (u : String) (saveOk : Bool) :
    List.Sublist ((removeBookmark l u saveOk).2) l
    ∧ ∀ bk ∈ l, bk.url ≠ u → bk ∈ (removeBookmark l u saveOk).2 := by
  constructor
  · exact List.filter_sublist l
  · intro bk hbk hne
    exact List.mem_filter.mpr ⟨hbk, by simpa using hne⟩

/-- Witness for C10 on a two-element store. -/
theorem removeBookmark_frame_witness :
    List.Sublist
      ((removeBookmark [{ title := "A", url := "a", source := "s", timestamp := "t1" },
          { title := "B", url := "b", source := "s", timestamp := "t2" }] "a" true).2)
      [{ title := "A", url := "a", source := "s", timestamp := "t1" },
       { title := "B", url := "b", source := "s", timestamp := "t2" }]
    ∧ ({ title := "B", url := "b", source := "s", timestamp := "t2" } : Bookmark)
        ∈ (removeBookmark [{ title := "A", url := "a", source := "s", timestamp := "t1" },
            { title := "B", url := "b", source := "s", timestamp := "t2" }] "a" true).2 :=
  ⟨(removeBookmark_frame
      [{ title := "A", url := "a", source := "s", timestamp := "t1" },
       { title := "B", url := "b", source := "s", timestamp := "t2" }] "a" true).1,
   (removeBookmark_frame
      [{ title := "A", url := "a", source := "s", timestamp := "t1" },
       { title := "B", url := "b", source := "s", timestamp := "t2" }] "a" true).2
      { title := "B", url := "b", source := "s", timestamp := "t2" }
      (by decide) (by decide)⟩

-- ### C6: non-empty titles and urls

/-- C6 as stated is false on the code: `get_hackernews` filters only on the
presence of the `title` and `url` keys (`'title' in story and 'url' in
story`), not on non-emptiness, so an upstream story carrying empty strings
in those fields yields a returned item with an empty title and url. -/
theorem adapter_nonempty_counterexample :
    ({ title := "", url := "", score := 5 } : ScoredItem)
      ∈ getHackernews (some [1])
          (fun _ => some { title := some "", url := some "", score := some 5 })
    ∧ ({ title := "", url := "", score := 5 } : ScoredItem).title = "" := by
  constructor
  · unfold getHackernews sortByKeyDesc
    exact List.mem_mergeSort.mpr (by decide)
  · rfl

/-- C6 (amended): neither score-ranked adapter enforces non-emptiness of
titles. What does hold: every item returned by `get_lesswrong` has a
non-empty url (built from a fixed non-empty stem), and every item returned
by `get_hackernews` has a non-empty title and url provided the upstream
stories carry non-empty values in those fields whenever they are present. -/
theorem adapter_nonempty_amended :
    (∀ (resp : Option (List LWPost)), ∀ it ∈ getLesswrong resp, it.url ≠ "")
    ∧ (∀ (topResp : Option (List Nat)) (fetchItem : Nat → Option HNStory),
        (∀ id story, fetchItem id = some story →
            (∀ t, story.title = some t → t ≠ "")
            ∧ (∀ u, story.url = some u → u ≠ "")) →
        ∀ it ∈ getHackernews topResp fetchItem, it.title ≠ "" ∧ it.url ≠ "") := by
  constructor
  · intro resp it hit
    have hmem : it ∈ lwPosts resp := by
      unfold getLesswrong sortByKeyDesc at hit
      exact List.mem_mergeSort.mp hit
    cases resp with
    | none => simp [lwPosts] at hmem
    | some results =>
      simp only [lwPosts, List.mem_map] at hmem
      obtain ⟨post, _, heq⟩ := hmem
      intro h0
      rw [← heq] at h0
      have hlen := congrArg String.length h0
      rw [String.length_append] at hlen
      have h32 : ("https://www.lesswrong.com/posts/" : String).length = 32 := rfl
      rw [h32] at hlen
      simp at hlen
  · intro topResp fetchItem hgood it hit
    have hmem : it ∈ hnStories topResp fetchItem := by
      unfold getHackernews sortByKeyDesc at hit
      exact List.mem_mergeSort.mp hit
    cases topResp with
    | none => simp [hnStories] at hmem
    | some ids =>
      simp only [hnStories, List.mem_filterMap] at hmem
      obtain ⟨id, _, heq⟩ := hmem
      split at heq
      · simp at heq
      · rename_i story hfetch
        obtain ⟨ht, hu⟩ := hgood id story hfetch
        split at heq
        · rename_i t u htitle hurl
          simp only [Option.some.injEq] at heq
          refine ⟨?_, ?_⟩
          · rw [← heq]
            exact ht t htitle
          · rw [← heq]
            exact hu u hurl
        · simp at heq

/-- Witness for C6 (amended): a LessWrong response with one post and a
Hacker News environment whose single story has non-empty fields. -/
theorem adapter_nonempty_amended_witness :
    ("https://www.lesswrong.com/posts/slug" : String) ≠ ""
    ∧ (("T5" : String) ≠ "" ∧ ("u5" : String) ≠ "") :=
  ⟨adapter_nonempty_amended.1
      (some [{ title := "A", slug := "slug", baseScore := some 3 }])
      { title := "A", url := "https://www.lesswrong.com/posts/slug", score := 3 }
      (by unfold getLesswrong sortByKeyDesc
          exact List.mem_mergeSort.mpr (by decide)),
   adapter_nonempty_amended.2 (some [1])
      (fun _ => some { title := some "T5", url := some "u5", score := some 7 })
      (by
        intro id story h
        have h2 : story = { title := some "T5", url := some "u5", score := some 7 } :=
          (Option.some.inj h).symm
        subst h2
        exact ⟨fun t ht => by rw [← Option.some.inj ht]; decide,
               fun u hu => by rw [← Option.some.inj hu]; decide⟩)
      { title := "T5", url := "u5", score := 7 }
      (by unfold getHackernews sortByKeyDesc
          exact List.mem_mergeSort.mpr (by decide))⟩

-- ### C7: score-ranked adapters return a stable descending order

/-- C7: for every upstream response, each score-ranked adapter
(`get_hackernews`, `get_lesswrong`, `get_ea_forum`) returns a sequence
sorted in non-increasing order of score, and items with equal scores keep
their original relative order (for every score value, the subsequence of
items with that score is unchanged by the sort). -/
theorem score_ranked_sorted_stable
    (topResp : Option (List Nat)) (fetchItem : Nat → Option HNStory)
    (lwResp : Option (List LWPost)) (eaResp : Option (List EAPost)) :
    ((getHackernews topResp fetchItem).Pairwise (fun a b => b.score ≤ a.score)
      ∧ ∀ s : Int, (getHackernews topResp fetchItem).filter (fun it => it.score = s)
          = (hnStories topResp fetchItem).filter (fun it => it.score = s))
    ∧ ((getLesswrong lwResp).Pairwise (fun a b => b.score ≤ a.score)
      ∧ ∀ s : Int, (getLesswrong lwResp).filter (fun it => it.score = s)
          = (lwPosts lwResp).filter (fun it => it.score = s))
    ∧ ((getEaForum eaResp).Pairwise (fun a b => b.score ≤ a.score)
      ∧ ∀ s : Int, (getEaForum eaResp).filter (fun it => it.score = s)
          = (eaPosts eaResp).filter (fun it => it.score = s)) :=
  ⟨⟨pairwise_sortByKeyDesc _ _, fun s => filter_sortByKeyDesc _ s _⟩,
   ⟨pairwise_sortByKeyDesc _ _, fun s => filter_sortByKeyDesc _ s _⟩,
   ⟨pairwise_sortByKeyDesc _ _, fun s => filter_sortByKeyDesc _ s _⟩⟩

-- ### C8: time-windowed adapters filter to the window and sort by time

/-- C8: for the time-windowed multi-feed adapters, every collected Substack
post has a parseable published time within the 1-day window; every collected
business post has a published time within the 3-day window (the fallback
items without a parseable date are stamped with the current time, which lies
inside the window); and each returned sequence is the `{title, url}`
projection of the first 20 collected posts in non-increasing order of
published time. -/
theorem time_windowed_filter_sorted
    (feeds : List (Option Feed)) (bfeeds : List (String × Option Feed)) (now : Int) :
    (∀ p ∈ substackPosts feeds now, now - oneDay ≤ p.published)
    ∧ ((sortByKeyDesc (fun x => x.published) (substackPosts feeds now)).take 20).Pairwise
        (fun a b => b.published ≤ a.published)
    ∧ getSubstackFeeds feeds now
        = ((sortByKeyDesc (fun x => x.published) (substackPosts feeds now)).take 20).map
            (fun post => { title := post.title, url := post.url })
    ∧ (∀ p ∈ businessPosts bfeeds now, now - threeDays ≤ p.published)
    ∧ ((sortByKeyDesc (fun x => x.published) (businessPosts bfeeds now)).take 20).Pairwise
        (fun a b => b.published ≤ a.published)
    ∧ getBusinessFeeds bfeeds now
        = ((sortByKeyDesc (fun x => x.published) (businessPosts bfeeds now)).take 20).map
            (fun post => { title := post.title, url := post.url }) := by
  refine ⟨?_, ?_, rfl, ?_, ?_, rfl⟩
  · intro p hp
    simp only [substackPosts, List.mem_flatMap] at hp
    obtain ⟨feedResult, _, hp⟩ := hp
    cases feedResult with
    | none => simp at hp
    | some feed =>
      simp only [List.mem_filterMap] at hp
      obtain ⟨entry, _, heq⟩ := hp
      split at heq
      · rename_i pubDate hpub
        split at heq
        · simp only [Option.some.injEq] at heq
          rename_i hin
          rw [← heq]
          exact hin
        · simp at heq
      · simp at heq
  · exact List.Pairwise.sublist (List.take_sublist 20 _) (pairwise_sortByKeyDesc _ _)
  · intro p hp
    simp only [businessPosts, List.mem_flatMap] at hp
    obtain ⟨namedFeed, _, hp⟩ := hp
    cases hnf : namedFeed.2 with
    | none => rw [hnf] at hp; simp at hp
    | some feed =>
      rw [hnf] at hp
      simp only [List.mem_filterMap] at hp
      obtain ⟨entry, _, heq⟩ := hp
      split at heq
      · rename_i pubDate hpub
        split at heq
        · simp only [Option.some.injEq] at heq
          rename_i hin
          rw [← heq]
          exact hin
        · simp at heq
      · simp only [Option.some.injEq] at heq
        rw [← heq]
        show now - threeDays ≤ now
        unfold threeDays
        omega
  · exact List.Pairwise.sublist (List.take_sublist 20 _) (pairwise_sortByKeyDesc _ _)

/-- Witness for C8: one in-window Substack entry and one undated business
fallback entry at the instant 100000. -/
theorem time_windowed_filter_sorted_witness :
    (100000 : Int) - oneDay ≤ (50000 : Int)
    ∧ (100000 : Int) - threeDays ≤ (100000 : Int) :=
  ⟨(time_windowed_filter_sorted
      [some { ftitle := some "F",
              entries := [{ title := "E", link := "e", published_parsed := some 50000 }] }]
      [("S", some { ftitle := none,
                    entries := [{ title := "B", link := "b", published_parsed := none }] })]
      100000).1
      { title := "E", url := "e", published := 50000, source := "F" } (by decide),
   (time_windowed_filter_sorted
      [some { ftitle := some "F",
              entries := [{ title := "E", link := "e", published_parsed := some 50000 }] }]
      [("S", some { ftitle := none,
                    entries := [{ title := "B", link := "b", published_parsed := none }] })]
      100000).2.2.2.1
      { title := "[S] B", url := "b", published := 100000, source := "S" } (by decide)⟩
